import Mathlib

set_option maxRecDepth 20000

/-!
Shallow embedding of the agent runtime's tool-execution subsystem
(`src/agent/s02_tool_use.ts`, with the single-tool variants in
`src/unnamed/part_000` and `src/unnamed/part_001`).

JavaScript strings are modelled over `List Char`; every definition is
translated from the TypeScript source, with side effects made explicit:
the filesystem is an association list from resolved absolute path to file
content, and the subprocess spawned by the bash executor is an oracle
argument describing the one outcome `execAsync` would produce.
-/

/-! ## JavaScript string primitives over lists of characters -/

/-- Whitespace characters removed by JavaScript `String.prototype.trim`
(the set relevant to this development: space, tab, newline, carriage
return, vertical tab, form feed, no-break space, BOM). -/
def isJsWs (c : Char) : Bool :=
  c = ' ' || c = '\t' || c = '\n' || c = '\r' || c = Char.ofNat 11 ||
    c = Char.ofNat 12 || c = Char.ofNat 160 || c = Char.ofNat 65279

/-- Model of JavaScript `trim`: drop whitespace from both ends. -/
def jsTrim (l : List Char) : List Char :=
  ((l.dropWhile isJsWs).reverse.dropWhile isJsWs).reverse

/-- Model of JavaScript `substring(0, n)` for string `s`. -/
def strTake (s : String) (n : Nat) : String :=
  String.mk (s.data.take n)

/-- Index of the first occurrence of `old` in a character list, as
JavaScript `indexOf` computes it (`some 0` when `old` is empty). -/
def firstIdx (old : List Char) : List Char → Option Nat
  | [] => if old.isEmpty then some 0 else none
  | c :: cs =>
    if old.isPrefixOf (c :: cs) then some 0
    else (firstIdx old cs).map (fun n => n + 1)

/-- Model of JavaScript `String.prototype.includes` (substring test). -/
def jsIncludes (s sub : String) : Bool :=
  (firstIdx sub.data s.data).isSome

/-- ECMAScript GetSubstitution applied to a string replacement: expands
the dollar patterns dollar-dollar, dollar-ampersand (the matched text),
dollar-backquote (the text before the match) and dollar-quote (the text
after the match); everything else, including dollar-digit with no capture
groups, is copied literally. -/
def getSub (matched before after : List Char) : List Char → List Char
  | [] => []
  | [c] => [c]
  | c :: d :: rest =>
    if c = '$' then
      if d = '$' then '$' :: getSub matched before after rest
      else if d = '&' then matched ++ getSub matched before after rest
      else if d = Char.ofNat 96 then before ++ getSub matched before after rest
      else if d = Char.ofNat 39 then after ++ getSub matched before after rest
      else c :: getSub matched before after (d :: rest)
    else c :: getSub matched before after (d :: rest)

/-- Model of JavaScript `String.prototype.replace` with a string search
value: replace the first occurrence of `old`, feeding `new` through
GetSubstitution; if `old` does not occur, return `s` unchanged. -/
def jsReplaceData (s old new : List Char) : List Char :=
  match firstIdx old s with
  | none => s
  | some i =>
    s.take i ++ getSub old (s.take i) (s.drop (i + old.length)) new ++
      s.drop (i + old.length)

/-- String-level wrapper of `jsReplaceData`. -/
def jsReplace (s old new : String) : String :=
  String.mk (jsReplaceData s.data old.data new.data)

/-- Model of JavaScript `split(sep)` for a one-character separator; an
empty input yields one empty segment, as in JavaScript. -/
def splitOnChar (sep : Char) : List Char → List (List Char)
  | [] => [[]]
  | c :: cs =>
    let r := splitOnChar sep cs
    if c = sep then [] :: r
    else
      match r with
      | [] => [[c]]
      | h :: t => (c :: h) :: t

/-- Model of JavaScript `Array.prototype.join` with separator `sep`. -/
def joinWith (sep : List Char) : List (List Char) → List Char
  | [] => []
  | [l] => l
  | l :: ls => l ++ sep ++ joinWith sep ls

/-- Model of JavaScript `Array.prototype.slice(0, e)`: a negative end
index counts from the end of the array. -/
def jsSlice0 {α : Type} (l : List α) (e : Int) : List α :=
  let stop : Int := if e < 0 then max ((l.length : Int) + e) 0 else min e (l.length : Int)
  l.take stop.toNat

/-- UTF-8 byte length of a string, as `Buffer.byteLength(content, "utf8")`
computes it. -/
def byteLen (s : String) : Nat :=
  (s.data.map Char.utf8Size).sum

/-! ## Path resolution and the sandbox check (`safePath`) -/

/-- Whether a path string is absolute (starts with a slash). -/
def startsWithSlash (s : String) : Bool :=
  match s.data with
  | [] => false
  | c :: _ => c = '/'

/-- Segment normalisation performed by `path.resolve`: empty and dot
segments are dropped, dot-dot pops the previous segment (staying at the
root when there is none). -/
def normSegs (segs : List (List Char)) : List (List Char) :=
  segs.foldl
    (fun acc s =>
      if s = [] || s = ['.'] then acc
      else if s = ['.', '.'] then acc.dropLast
      else acc ++ [s])
    []

/-- Model of Node `path.resolve(base, p)` for an absolute `base` on a
POSIX filesystem: join unless `p` is absolute, then normalise. -/
def pathResolve (base p : String) : String :=
  let full : List Char :=
    if startsWithSlash p then p.data else base.data ++ '/' :: p.data
  String.mk ('/' :: joinWith ['/'] (normSegs (splitOnChar '/' full)))

/-- Embedding of `safePath` (s02_tool_use.ts lines 27-33): resolve `p`
against the working directory `wd` and reject when the resolved path does
not start with `wd` as a string prefix. `Except.error` models the thrown
path-escape error, whose message each file executor catches and prefixes
with `Error: `. -/
def safePath (wd p : String) : Except String String :=
  let resolved := pathResolve wd p
  if wd.data.isPrefixOf resolved.data then Except.ok resolved
  else Except.error ("Path escapes workspace: " ++ p)

/-- Modelled from the spec's words: the resolved absolute path `resolved`
lies under the working directory `wd` when it is the directory itself or
a proper descendant of it. This is the spec's notion of path confinement,
to be compared with the prefix test inside `safePath`. -/
def liesUnder (wd resolved : String) : Bool :=
  resolved == wd || (wd.data ++ ['/']).isPrefixOf resolved.data

/-! ## Filesystem state -/

/-- The filesystem visible to the file executors: an association list
from resolved absolute path to file content. -/
abbrev FileSys := List (String × String)

/-- Content of the file at resolved path `p`, when it exists. -/
def fsRead (fs : FileSys) (p : String) : Option String :=
  (fs.find? (fun kv => kv.1 == p)).map (fun kv => kv.2)

/-- Overwrite or create the file at resolved path `p`. -/
def fsWrite : FileSys → String → String → FileSys
  | [], p, v => [(p, v)]
  | (q, w) :: rest, p, v =>
    if q == p then (p, v) :: rest else (q, w) :: fsWrite rest p v

/-- Message carried by the error Node throws when reading a missing
file. -/
def enoentMsg (fp : String) : String :=
  "ENOENT: no such file or directory, open \x27" ++ fp ++ "\x27"

/-! ## Sandboxed executors -/

/-- The fixed denylist of dangerous substrings shared by every variant of
the bash executor. -/
def dangerousList : List String :=
  ["rm -rf /", "sudo", "shutdown", "reboot", "> /dev/"]

/-- Outcome the `execAsync` collaborator would produce for a spawned
command: either the promise resolves with captured streams, or it rejects
with an error object carrying `killed`, `signal`, the captured streams
(already defaulted to the empty string) and a message. -/
inductive ExecResult
  | success (stdout stderr : String)
  | failure (killed : Bool) (signal : String) (stdout stderr message : String)

/-- Embedding of `runBash` (s02_tool_use.ts lines 35-54). The returned
boolean records whether a process was spawned, i.e. whether control
reached `execAsync`. -/
def runBash (command : String) (outcome : ExecResult) : String × Bool :=
  if dangerousList.any (fun d => jsIncludes command d) then
    ("Error: Dangerous command blocked", false)
  else
    match outcome with
    | .success stdout stderr =>
      let out := jsTrim (stdout.data ++ stderr.data)
      (if out.isEmpty then "(no output)" else String.mk (out.take 50000), true)
    | .failure killed signal stdout stderr message =>
      if killed && signal == "SIGTERM" then ("Error: Timeout (120s)", true)
      else
        let out := jsTrim (stdout.data ++ stderr.data)
        (if out.isEmpty then "Error: " ++ message else String.mk (out.take 50000), true)

/-- Marker line appended by the read executor when lines are omitted. -/
def readMarker (n : Int) : List Char :=
  ("... (" ++ toString n ++ " more lines)").data

/-- Embedding of `runRead` (s02_tool_use.ts lines 56-68). A `limit` of
`none` models the argument being absent; a present limit participates in
the JavaScript truthiness test, so a zero limit disables truncation. -/
def runRead (wd : String) (fs : FileSys) (p : String) (limit : Option Int) : String :=
  match safePath wd p with
  | .error msg => "Error: " ++ msg
  | .ok fp =>
    match fsRead fs fp with
    | none => "Error: " ++ enoentMsg fp
    | some text =>
      let lines := splitOnChar '\n' text.data
      let lines2 :=
        match limit with
        | some n =>
          if n ≠ 0 ∧ n < (lines.length : Int) then
            jsSlice0 lines n ++ [readMarker ((lines.length : Int) - n)]
          else lines
        | none => lines
      String.mk ((joinWith ['\n'] lines2).take 50000)

/-- Embedding of `runWrite` (s02_tool_use.ts lines 70-79): confine the
path, create parents (directory entries are not tracked by `FileSys`),
write the content, report the byte count. -/
def runWrite (wd : String) (fs : FileSys) (p content : String) : FileSys × String :=
  match safePath wd p with
  | .error msg => (fs, "Error: " ++ msg)
  | .ok fp =>
    (fsWrite fs fp content,
     "Wrote " ++ toString (byteLen content) ++ " bytes to " ++ p)

/-- Embedding of `runEdit` (s02_tool_use.ts lines 81-93): confine the
path, read the content, fail when `oldText` does not occur, otherwise
write back `content.replace(oldText, newText)`. -/
def runEdit (wd : String) (fs : FileSys) (p oldText newText : String) :
    FileSys × String :=
  match safePath wd p with
  | .error msg => (fs, "Error: " ++ msg)
  | .ok fp =>
    match fsRead fs fp with
    | none => (fs, "Error: " ++ enoentMsg fp)
    | some content =>
      if jsIncludes content oldText then
        (fsWrite fs fp (jsReplace content oldText newText), "Edited " ++ p)
      else (fs, "Error: Text not found in " ++ p)

/-! ## Model-issued tool invocations and the conversation -/

/-- A parsed JSON value appearing as a field of a tool-arguments object.
The modelled argument space is objects whose fields are strings or
numbers, which covers every schema the registry advertises. -/
inductive JVal
  | jstr (s : String)
  | jnum (n : Int)
  deriving DecidableEq

/-- A parsed JSON arguments object: field name to value. -/
abbrev Args := List (String × JVal)

/-- Value of field `k` of an arguments object (`undefined` is `none`). -/
def getField (args : Args) (k : String) : Option JVal :=
  (args.find? (fun kv => kv.1 == k)).map (fun kv => kv.2)

/-- JavaScript ToString applied to a possibly-absent field, as
`String.prototype.includes` and `replace` coerce their arguments: a
missing field is the undefined value, whose string conversion is the
literal text `undefined`. -/
def jsToStr : Option JVal → String
  | some (.jstr s) => s
  | some (.jnum n) => toString n
  | none => "undefined"

/-- The numeric `limit` argument passed to the read executor: present
exactly when the field is a JSON number. -/
def getLimit (args : Args) : Option Int :=
  match getField args "limit" with
  | some (.jnum n) => some n
  | _ => none

/-- A model-issued tool-invocation request. `arguments` is the outcome of
`JSON.parse` on the collaborator-supplied argument string: `none` models
a string the parser rejects (the parse throws), `some args` its parsed
object. -/
structure ToolCall where
  id : String
  name : String
  arguments : Option Args
  deriving DecidableEq

/-- One turn of the conversation transcript kept by the loop. -/
inductive Msg
  | user (content : String)
  | assistant (content : Option String) (toolCalls : Option (List ToolCall))
  | tool (toolCallId : String) (content : String)
  deriving DecidableEq

/-- The identifier carried by a tool-result turn, if the turn is one. -/
def msgToolId : Msg → Option String
  | .tool i _ => some i
  | _ => none

/-- Number of tool-result turns in a transcript. -/
def countToolMsgs (msgs : List Msg) : Nat :=
  (msgs.filter (fun m => (msgToolId m).isSome)).length

/-- One assistant response returned by the model collaborator. -/
structure ModelResp where
  content : Option String
  toolCalls : Option (List ToolCall)
  finishReason : String

/-! ## The s02 dispatcher and agent loop -/

/-- Outcome of dispatching a single tool call in the s02 loop body: a
result string (with the filesystem it leaves behind), or an exception
escaping the loop. -/
inductive StepOut
  | ok (fs : FileSys) (output : String)
  | raised
  deriving DecidableEq

/-- Error message carried by the TypeError Node raises when a path
argument is not a string (thrown inside the executor's try block, hence
caught and prefixed). -/
def pathTypeMsg : String :=
  "The \x22path\x22 argument must be of type string"

/-- Error message carried by the TypeError thrown by `fs.writeFile` when
the data argument is not a string. -/
def contentTypeMsg : String :=
  "The \x22data\x22 argument must be of type string or an instance of Buffer"

/-- Member names the plain-object handler map inherits from
`Object.prototype`, so the lookup `TOOL_HANDLERS[name]` finds a truthy
value for them even though no tool is registered. Under strict-mode
module code, calling the inherited `toString` with an undefined receiver
returns the string `[object Undefined]`, which becomes the tool output;
every other inherited member makes the loop body throw: the call itself
raises a TypeError on the undefined receiver (`valueOf`,
`hasOwnProperty`, `isPrototypeOf`, `propertyIsEnumerable`,
`toLocaleString`, the four legacy accessor-definition methods), the
looked-up value is not callable (`__proto__` yields the prototype
object), or the returned value is not a string, so the trace line's
`output.substring` throws (`constructor` is the `Object` function, which
returns the arguments object itself). -/
def objectProtoMembers : List String :=
  ["constructor", "hasOwnProperty", "isPrototypeOf", "propertyIsEnumerable",
   "toLocaleString", "toString", "valueOf", "__proto__",
   "__defineGetter__", "__defineSetter__", "__lookupGetter__",
   "__lookupSetter__"]

/-- Embedding of the s02 loop body for one tool call (s02_tool_use.ts
lines 160-163 with the handler map of lines 96-101): `JSON.parse` runs
first and throws on malformed arguments; the bash handler's denylist test
throws on a non-string command (it runs outside the try block); the file
handlers catch every type error inside their try blocks; an unregistered
tool name produces the `Unknown tool` payload unless it names an
`Object.prototype` member that the plain-object lookup inherits (see
`objectProtoMembers`). -/
def dispatchOne (wd : String) (execOf : String → ExecResult) (fs : FileSys)
    (tc : ToolCall) : StepOut :=
  match tc.arguments with
  | none => .raised
  | some args =>
    if tc.name = "bash" then
      match getField args "command" with
      | some (.jstr c) => .ok fs (runBash c (execOf c)).1
      | _ => .raised
    else if tc.name = "read_file" then
      match getField args "path" with
      | some (.jstr p) => .ok fs (runRead wd fs p (getLimit args))
      | _ => .ok fs ("Error: " ++ pathTypeMsg)
    else if tc.name = "write_file" then
      match getField args "path" with
      | some (.jstr p) =>
        match getField args "content" with
        | some (.jstr content) =>
          let r := runWrite wd fs p content
          .ok r.1 r.2
        | _ =>
          .ok fs
            (match safePath wd p with
             | .error m => "Error: " ++ m
             | .ok _ => "Error: " ++ contentTypeMsg)
      | _ => .ok fs ("Error: " ++ pathTypeMsg)
    else if tc.name = "edit_file" then
      match getField args "path" with
      | some (.jstr p) =>
        let r := runEdit wd fs p (jsToStr (getField args "old_text"))
          (jsToStr (getField args "new_text"))
        .ok r.1 r.2
      | _ => .ok fs ("Error: " ++ pathTypeMsg)
    else if tc.name = "toString" then .ok fs "[object Undefined]"
    else if objectProtoMembers.contains tc.name then .raised
    else .ok fs ("Unknown tool: " ++ tc.name)

/-- Outcome of the s02 dispatch round over one assistant turn's tool
calls. Because results are pushed onto the live message array one call at
a time, an exception thrown mid-round leaves the results already pushed
in place; `raised` therefore carries them. -/
inductive RoundOut
  | ok (fs : FileSys) (results : List Msg)
  | raised (fs : FileSys) (results : List Msg)
  deriving DecidableEq

/-- Embedding of the s02 dispatch round (s02_tool_use.ts lines 160-172):
process the calls in order, appending one tool-result turn per call. -/
def dispatchRound (wd : String) (execOf : String → ExecResult) :
    FileSys → List ToolCall → RoundOut
  | fs, [] => .ok fs []
  | fs, tc :: rest =>
    match dispatchOne wd execOf fs tc with
    | .raised => .raised fs []
    | .ok fs1 out =>
      match dispatchRound wd execOf fs1 rest with
      | .ok fs2 results => .ok fs2 (Msg.tool tc.id out :: results)
      | .raised fs2 results => .raised fs2 (Msg.tool tc.id out :: results)

/-- Terminal observation of the s02 agent loop: the model stopped
requesting tools, the scripted collaborator ran out of responses, or an
exception escaped the loop (carrying the transcript as mutated so far). -/
inductive LoopOut
  | done (fs : FileSys) (msgs : List Msg)
  | scriptEnded (fs : FileSys) (msgs : List Msg)
  | raised (fs : FileSys) (msgs : List Msg)
  deriving DecidableEq

/-- Embedding of the s02 `agentLoop` (s02_tool_use.ts lines 138-174)
against a scripted model collaborator: each iteration consumes the next
scripted response, appends the assistant turn, returns unless the finish
reason is `tool_calls` with a present tool-call array, and otherwise
appends the dispatch round's results before the next model call. -/
def agentLoop (wd : String) (execOf : String → ExecResult) :
    List ModelResp → FileSys → List Msg → LoopOut
  | [], fs, msgs => .scriptEnded fs msgs
  | r :: rest, fs, msgs =>
    let msgs1 := msgs ++ [Msg.assistant r.content r.toolCalls]
    match r.toolCalls with
    | some tcs =>
      if r.finishReason = "tool_calls" then
        match dispatchRound wd execOf fs tcs with
        | .ok fs1 results => agentLoop wd execOf rest fs1 (msgs1 ++ results)
        | .raised fs1 results => .raised fs1 (msgs1 ++ results)
      else .done fs msgs1
    | none => .done fs msgs1

/-! ## The s01 OpenAI-variant loop body (src/unnamed/part_001) -/

/-- Outcome of the `Bun.spawn` collaborator in the s01 bash executor:
the streams were read (with the kill flag observed afterwards), or the
spawn threw. -/
inductive S01Exec
  | done (stdout stderr : String) (killed : Bool)
  | threw (message : String)

/-- Embedding of `runBash` from part_001 (lines 29-59): denylist, spawn,
timeout kill flag, trim and truncate. -/
def s01RunBash (command : String) (outcome : S01Exec) : String :=
  if dangerousList.any (fun d => jsIncludes command d) then
    "Error: Dangerous command blocked"
  else
    match outcome with
    | .threw message => "Error: " ++ message
    | .done stdout stderr killed =>
      if killed then "Error: Timeout (120s)"
      else
        let out := jsTrim (stdout.data ++ stderr.data)
        if out.isEmpty then "(no output)" else String.mk (out.take 50000)

/-- Embedding of the defensive argument handling of part_001 (lines
86-93): a JSON parse failure falls back to an empty command, a missing or
falsy command field stringifies to the empty string, and any other value
is stringified. -/
def s01CoerceCommand : Option Args → String
  | none => ""
  | some args =>
    match getField args "command" with
    | some (.jstr s) => s
    | some (.jnum n) => if n = 0 then "" else toString n
    | none => ""

/-- Embedding of the s01 dispatch round (part_001 lines 83-107): only
calls named `bash` are executed, each producing one tool-result turn;
other calls are skipped. The round is total: no exception can escape. -/
def s01DispatchRound (execOf : String → S01Exec) : List ToolCall → List Msg
  | [] => []
  | tc :: rest =>
    if tc.name = "bash" then
      let command := s01CoerceCommand tc.arguments
      Msg.tool tc.id (s01RunBash command (execOf command)) ::
        s01DispatchRound execOf rest
    else s01DispatchRound execOf rest

/-- Modelled from the spec's words, for comparison with the replacement
the code performs: the content with exactly the first occurrence of `old`
replaced by the literal string `new`, all other content unchanged. -/
def specReplaceFirst (content old new : String) : String :=
  match firstIdx old.data content.data with
  | none => content
  | some i =>
    String.mk
      (content.data.take i ++ new.data ++ content.data.drop (i + old.data.length))

/-! ## Helper lemmas -/

theorem getSub_no_dollar (m b a : List Char) :
    ∀ (n : Nat) (l : List Char), l.length ≤ n → '$' ∉ l → getSub m b a l = l := by
  intro n
  induction n with
  | zero =>
    intro l hl _
    have : l = [] := List.eq_nil_of_length_eq_zero (Nat.le_zero.mp hl)
    subst this
    rfl
  | succ n ih =>
    intro l hl hd
    match l with
    | [] => rfl
    | [c] => rfl
    | c :: d :: rest =>
      have hc : c ≠ '$' := fun h => hd (h ▸ List.mem_cons_self c (d :: rest))
      have hd2 : '$' ∉ d :: rest := fun h => hd (List.mem_cons_of_mem c h)
      have hlen : (d :: rest).length ≤ n := by
        simp only [List.length_cons] at hl ⊢
        omega
      simp only [getSub, if_neg hc]
      rw [ih (d :: rest) hlen hd2]

theorem getSub_id_of_no_dollar (m b a l : List Char) (h : '$' ∉ l) :
    getSub m b a l = l :=
  getSub_no_dollar m b a l.length l (Nat.le_refl _) h

theorem jsReplace_no_dollar (s old new : String) (h : '$' ∉ new.data) :
    jsReplace s old new = specReplaceFirst s old new := by
  simp only [jsReplace, jsReplaceData, specReplaceFirst]
  cases hf : firstIdx old.data s.data with
  | none => rfl
  | some i =>
    show String.mk
        (s.data.take i ++
          getSub old.data (s.data.take i) (s.data.drop (i + old.data.length))
            new.data ++
          s.data.drop (i + old.data.length)) =
      String.mk (s.data.take i ++ new.data ++ s.data.drop (i + old.data.length))
    rw [getSub_id_of_no_dollar _ _ _ _ h]

theorem firstIdx_nil (l : List Char) : firstIdx [] l = some 0 := by
  cases l <;> simp [firstIdx, List.isPrefixOf]

theorem jsSlice0_of_lt {α : Type} (l : List α) (k : Int) (h0 : 0 ≤ k)
    (h1 : k < (l.length : Int)) : jsSlice0 l k = l.take k.toNat := by
  unfold jsSlice0
  rw [if_neg (by omega), min_eq_left (le_of_lt h1)]

theorem dispatchRound_ok_spec (wd : String) (execOf : String → ExecResult)
    (tcs : List ToolCall) :
    ∀ (fs fs1 : FileSys) (results : List Msg),
      dispatchRound wd execOf fs tcs = RoundOut.ok fs1 results →
      results.map msgToolId = tcs.map (fun tc => some tc.id) := by
  induction tcs with
  | nil =>
    intro fs fs1 results h
    simp only [dispatchRound, RoundOut.ok.injEq] at h
    obtain ⟨_, h2⟩ := h
    subst h2
    rfl
  | cons tc rest ih =>
    intro fs fs1 results h
    cases hone : dispatchOne wd execOf fs tc with
    | raised => simp [dispatchRound, hone] at h
    | ok fsa out =>
      cases hrest : dispatchRound wd execOf fsa rest with
      | raised fsb res2 => simp [dispatchRound, hone, hrest] at h
      | ok fsb res2 =>
        simp only [dispatchRound, hone, hrest, RoundOut.ok.injEq] at h
        obtain ⟨_, h2⟩ := h
        subst h2
        simp only [List.map_cons, msgToolId]
        exact congrArg (List.cons (some tc.id)) (ih fsa fsb res2 hrest)


/-! ## Claim theorems -/

/-- C1: the path-confinement claim is right and the code is wrong. With
working directory /work, the argument ../work2/f resolves to /work2/f,
which lies outside the working directory, yet `safePath` accepts it
because the string /work2/f starts with the string /work, and the write
executor then mutates the filesystem outside the sandbox and reports
success instead of an error. -/
theorem path_confinement_code_bug :
    safePath "/work" "../work2/f" = Except.ok "/work2/f" ∧
    liesUnder "/work" "/work2/f" = false ∧
    runWrite "/work" [] "../work2/f" "hi" =
      ([("/work2/f", "hi")], "Wrote 2 bytes to ../work2/f") :=
  ⟨by rfl, by decide, by rfl⟩

/-- C2 counterexample: an assistant turn with two tool-invocation
requests whose second carries malformed arguments makes the loop raise
after appending only one tool-result turn, so the turn's two requests are
not answered by two tool-result turns. -/
theorem dispatch_pairing_cx :
    agentLoop "/w" (fun _ => ExecResult.success "" "")
      [⟨none,
        some [⟨"a", "bash", some [("command", JVal.jstr "ls")]⟩,
              ⟨"b", "bash", none⟩],
        "tool_calls"⟩] [] [] =
      LoopOut.raised []
        [Msg.assistant none
          (some [⟨"a", "bash", some [("command", JVal.jstr "ls")]⟩,
                 ⟨"b", "bash", none⟩]),
         Msg.tool "a" "(no output)"] ∧
    countToolMsgs
      [Msg.assistant none
        (some [⟨"a", "bash", some [("command", JVal.jstr "ls")]⟩,
               ⟨"b", "bash", none⟩]),
       Msg.tool "a" "(no output)"] = 1 ∧
    ([⟨"a", "bash", some [("command", JVal.jstr "ls")]⟩,
      ⟨"b", "bash", none⟩] : List ToolCall).length = 2 :=
  ⟨by decide, by decide, by decide⟩

/-- C2 (amended): for every assistant turn whose tool-invocation requests
all dispatch without raising, the loop appends exactly N tool-result
turns, each identifier equal to that of its originating request, in the
original request order, before the next model call is issued. -/
theorem dispatch_pairing_amended (wd : String) (execOf : String → ExecResult)
    (r : ModelResp) (script : List ModelResp) (fs fs1 : FileSys)
    (msgs : List Msg) (tcs : List ToolCall) (results : List Msg)
    (hfin : r.finishReason = "tool_calls")
    (htc : r.toolCalls = some tcs)
    (hd : dispatchRound wd execOf fs tcs = RoundOut.ok fs1 results) :
    agentLoop wd execOf (r :: script) fs msgs =
      agentLoop wd execOf script fs1
        ((msgs ++ [Msg.assistant r.content r.toolCalls]) ++ results) ∧
    results.length = tcs.length ∧
    results.map msgToolId = tcs.map (fun tc => some tc.id) := by
  refine ⟨?_, ?_, dispatchRound_ok_spec wd execOf tcs fs fs1 results hd⟩
  · simp only [agentLoop, htc, hfin, hd, if_pos]
  · have := congrArg List.length (dispatchRound_ok_spec wd execOf tcs fs fs1 results hd)
    simpa using this

def c2Exec : String → ExecResult := fun _ => ExecResult.success "hi\n" ""

def c2Call : ToolCall := ⟨"id1", "bash", some [("command", JVal.jstr "echo hi")]⟩

def c2Resp : ModelResp := ⟨some "t", some [c2Call], "tool_calls"⟩

/-- C2 witness: a concrete one-request turn dispatches to one tool-result
with the matching identifier. -/
theorem dispatch_pairing_witness :
    agentLoop "/w" c2Exec [c2Resp] [] [] =
      agentLoop "/w" c2Exec [] []
        (([] ++ [Msg.assistant (some "t") (some [c2Call])]) ++
          [Msg.tool "id1" "hi"]) ∧
    ([Msg.tool "id1" "hi"] : List Msg).length = [c2Call].length ∧
    ([Msg.tool "id1" "hi"] : List Msg).map msgToolId =
      [c2Call].map (fun tc => some tc.id) :=
  dispatch_pairing_amended "/w" c2Exec c2Resp [] [] [] [] [c2Call]
    [Msg.tool "id1" "hi"] rfl rfl (by decide)

/-- C3 counterexample: the s02 dispatcher raises on a bash invocation
whose arguments string is malformed JSON, producing no tool-result turn
at all, instead of coercing to safe defaults. -/
theorem dispatch_coerce_cx :
    dispatchRound "/w" (fun _ => ExecResult.success "" "") []
      [⟨"x", "bash", none⟩] = RoundOut.raised [] [] := by decide

/-- C3 (amended): only the s01 OpenAI-variant loop parses the arguments
payload defensively: there a bash invocation always yields exactly one
tool-result turn whose command is the coercion of the payload, and a
malformed payload coerces to the empty string; the s02 dispatcher instead
raises past the loop on malformed arguments. -/
theorem dispatch_coerce_amended (execOf : String → S01Exec) (tc : ToolCall)
    (hn : tc.name = "bash") :
    s01DispatchRound execOf [tc] =
      [Msg.tool tc.id
        (s01RunBash (s01CoerceCommand tc.arguments)
          (execOf (s01CoerceCommand tc.arguments)))] ∧
    s01CoerceCommand none = "" := by
  constructor
  · simp [s01DispatchRound, hn]
  · rfl

/-- C3 witness: a concrete malformed bash invocation still produces a
tool-result turn in the s01 variant. -/
theorem dispatch_coerce_witness :
    s01DispatchRound (fun _ => S01Exec.done "" "" false)
      [⟨"z", "bash", none⟩] =
      [Msg.tool "z"
        (s01RunBash (s01CoerceCommand none)
          ((fun _ => S01Exec.done "" "" false) (s01CoerceCommand none)))] ∧
    s01CoerceCommand none = "" :=
  dispatch_coerce_amended (fun _ => S01Exec.done "" "" false)
    ⟨"z", "bash", none⟩ rfl

/-- C4 counterexample: patch-file with old_text a and new_text the
dollar-ampersand pattern repeated twice, on a file containing abc, writes
back aabc rather than the content with the literal new_text spliced in,
because JavaScript replace expands dollar patterns in the replacement. -/
theorem patch_literal_cx :
    runEdit "/w" [("/w/f", "abc")] "f" "a" "$&$&" =
      ([("/w/f", "aabc")], "Edited f") ∧
    ("aabc" : String) ≠ "$&$&bc" :=
  ⟨by rfl, by decide⟩

/-- C4 (amended): for every file whose content contains old_text and
every new_text containing no dollar character, patch-file writes back the
content with exactly the first occurrence of old_text replaced by the
literal string new_text, all other content unchanged; a new_text with a
dollar character instead goes through the GetSubstitution expansion. -/
theorem patch_literal_amended (wd p fp oldText newText content : String)
    (fs : FileSys)
    (hs : safePath wd p = Except.ok fp)
    (hr : fsRead fs fp = some content)
    (hinc : jsIncludes content oldText = true)
    (hd : '$' ∉ newText.data) :
    runEdit wd fs p oldText newText =
      (fsWrite fs fp (specReplaceFirst content oldText newText),
       "Edited " ++ p) := by
  simp only [runEdit, hs, hr, hinc, if_pos, jsReplace_no_dollar _ _ _ hd]

/-- C4 witness: replacing b with XY in abc writes aXYc. -/
theorem patch_literal_witness :
    runEdit "/w" [("/w/f", "abc")] "f" "b" "XY" =
      (fsWrite [("/w/f", "abc")] "/w/f" (specReplaceFirst "abc" "b" "XY"),
       "Edited " ++ "f") :=
  patch_literal_amended "/w" "f" "/w/f" "b" "XY" "abc" [("/w/f", "abc")]
    (by rfl) (by rfl) (by rfl) (by decide)

/-- C5: when the file content does not contain old_text as a substring,
patch-file returns the Text-not-found error naming the original path
argument and leaves the filesystem byte-for-byte unchanged. -/
theorem patch_not_found (wd p fp oldText newText content : String)
    (fs : FileSys)
    (hs : safePath wd p = Except.ok fp)
    (hr : fsRead fs fp = some content)
    (hinc : jsIncludes content oldText = false) :
    runEdit wd fs p oldText newText =
      (fs, "Error: Text not found in " ++ p) := by
  simp only [runEdit, hs, hr, hinc]
  simp

/-- C5 witness: patching zz in abc fails and leaves the file as it was. -/
theorem patch_not_found_witness :
    runEdit "/w" [("/w/f", "abc")] "f" "zz" "Q" =
      ([("/w/f", "abc")], "Error: Text not found in " ++ "f") :=
  patch_not_found "/w" "f" "/w/f" "zz" "Q" "abc" [("/w/f", "abc")]
    (by rfl) (by rfl) (by decide)

/-- C6 counterexample: read-file with a limit of zero returns the whole
file, not the omission marker, because zero is falsy in the truncation
guard of the read executor. -/
theorem read_limit_cx :
    runRead "/w" [("/w/f", "a\nb")] "f" (some 0) = "a\nb" ∧
    ("a\nb" : String) ≠ "... (2 more lines)" :=
  ⟨by rfl, by decide⟩

/-- C6 (amended): for a present line limit of at least one, when the file
has more lines than the limit, read-file returns the first limit lines
followed by the marker noting how many lines were omitted, truncated to
the 50000-character bound; a limit of zero is falsy and disables
truncation instead of omitting every line. -/
theorem read_limit_amended (wd p fp text : String) (fs : FileSys) (k : Int)
    (hs : safePath wd p = Except.ok fp)
    (hr : fsRead fs fp = some text)
    (h1 : 1 ≤ k)
    (h2 : k < ((splitOnChar '\n' text.data).length : Int)) :
    runRead wd fs p (some k) =
      String.mk
        ((joinWith ['\n']
          ((splitOnChar '\n' text.data).take k.toNat ++
            [readMarker (((splitOnChar '\n' text.data).length : Int) - k)])).take
          50000) := by
  simp only [runRead, hs, hr]
  rw [if_pos ⟨by omega, h2⟩, jsSlice0_of_lt _ _ (by omega) h2]

/-- C6 witness: reading a three-line file with limit two returns the
first two lines and a one-line omission marker. -/
theorem read_limit_witness :
    runRead "/w" [("/w/f", "a\nb\nc")] "f" (some 2) =
      String.mk
        ((joinWith ['\n']
          ((splitOnChar '\n' ("a\nb\nc" : String).data).take (2 : Int).toNat ++
            [readMarker
              (((splitOnChar '\n' ("a\nb\nc" : String).data).length : Int) -
                2)])).take 50000) :=
  read_limit_amended "/w" "f" "/w/f" "a\nb\nc" [("/w/f", "a\nb\nc")] 2
    (by rfl) (by rfl) (by decide) (by decide)

/-- C7: a command containing any denylisted substring is answered with
exactly the Dangerous-command error and no process is spawned, whatever
the subprocess collaborator would have done. -/
theorem denylist_coverage (command : String) (outcome : ExecResult)
    (h : dangerousList.any (fun d => jsIncludes command d) = true) :
    runBash command outcome = ("Error: Dangerous command blocked", false) := by
  simp [runBash, h]

/-- C7 witness: a command containing sudo is blocked without spawning. -/
theorem denylist_coverage_witness :
    runBash "sudo ls" (ExecResult.success "x" "") =
      ("Error: Dangerous command blocked", false) :=
  denylist_coverage "sudo ls" (ExecResult.success "x" "") (by decide)

/-- C8 counterexample, three ways the universal claim fails. A request
naming an unregistered tool but carrying malformed arguments raises out
of the dispatcher (the argument parse runs before the registry lookup).
A request named toString is not in the registry either, yet the
plain-object lookup inherits the member from the object prototype, so the
dispatcher answers with the payload of calling it on an undefined
receiver instead of the Unknown-tool text. A request named constructor
finds the inherited object constructor, whose non-string return value
makes the trace line raise. -/
theorem unknown_tool_cx :
    dispatchRound "/w" (fun _ => ExecResult.success "" "") []
      [⟨"c", "frobnicate", none⟩] = RoundOut.raised [] [] ∧
    dispatchRound "/w" (fun _ => ExecResult.success "" "") []
      [⟨"t", "toString", some []⟩] =
      RoundOut.ok [] [Msg.tool "t" "[object Undefined]"] ∧
    ("[object Undefined]" : String) ≠ "Unknown tool: toString" ∧
    dispatchRound "/w" (fun _ => ExecResult.success "" "") []
      [⟨"k", "constructor", some []⟩] = RoundOut.raised [] [] :=
  ⟨by decide, by decide, by decide, by decide⟩

/-- C8 (amended): for every request whose arguments parse, whose tool
name is not present in the registry, and whose tool name is not an
inherited object-prototype member, dispatch returns a tool-result whose
payload is the Unknown-tool text, does not raise, and leaves the
filesystem unchanged, so the loop continues normally. -/
theorem unknown_tool_amended (wd : String) (execOf : String → ExecResult)
    (fs : FileSys) (tc : ToolCall) (args : Args)
    (ha : tc.arguments = some args)
    (h1 : tc.name ≠ "bash") (h2 : tc.name ≠ "read_file")
    (h3 : tc.name ≠ "write_file") (h4 : tc.name ≠ "edit_file")
    (hp : objectProtoMembers.contains tc.name = false) :
    dispatchRound wd execOf fs [tc] =
      RoundOut.ok fs [Msg.tool tc.id ("Unknown tool: " ++ tc.name)] := by
  have h5 : tc.name ≠ "toString" := by
    intro h
    rw [h] at hp
    simp [objectProtoMembers] at hp
  have hp2 : tc.name ∉ objectProtoMembers := by simpa using hp
  simp [dispatchRound, dispatchOne, ha, h1, h2, h3, h4, h5, hp2]

/-- C8 witness: a request for the unregistered tool frobnicate with an
empty arguments object produces the Unknown-tool result. -/
theorem unknown_tool_witness :
    dispatchRound "/w" (fun _ => ExecResult.success "" "") []
      [⟨"d", "frobnicate", some []⟩] =
      RoundOut.ok [] [Msg.tool "d" ("Unknown tool: " ++ "frobnicate")] :=
  unknown_tool_amended "/w" (fun _ => ExecResult.success "" "") []
    ⟨"d", "frobnicate", some []⟩ [] rfl (by decide) (by decide) (by decide)
    (by decide) (by decide)

/-- C9 counterexample: patch-file with empty old_text and new_text the
dollar-ampersand pattern succeeds but writes the file back unchanged,
because the pattern expands to the empty match, so new_text is not
inserted at the beginning of the content. -/
theorem patch_empty_old_cx :
    runEdit "/w" [("/w/f", "abc")] "f" "" "$&" =
      ([("/w/f", "abc")], "Edited f") ∧
    ("abc" : String) ≠ "$&abc" :=
  ⟨by rfl, by decide⟩

/-- C9 (amended): for every file and every new_text containing no dollar
character, patch-file with empty old_text passes the substring test and
writes back the file with new_text inserted at the very beginning of the
previous content. -/
theorem patch_empty_old_amended (wd p fp newText content : String)
    (fs : FileSys)
    (hs : safePath wd p = Except.ok fp)
    (hr : fsRead fs fp = some content)
    (hd : '$' ∉ newText.data) :
    jsIncludes content "" = true ∧
    runEdit wd fs p "" newText =
      (fsWrite fs fp (String.mk (newText.data ++ content.data)),
       "Edited " ++ p) := by
  have hinc : jsIncludes content "" = true := by
    simp [jsIncludes, firstIdx_nil]
  refine ⟨hinc, ?_⟩
  simp only [runEdit, hs, hr, hinc, if_pos]
  have hrep : jsReplace content "" newText =
      String.mk (newText.data ++ content.data) := by
    simp only [jsReplace, jsReplaceData, String.data]
    rw [firstIdx_nil]
    show String.mk
        (content.data.take 0 ++
          getSub ("" : String).data (content.data.take 0)
            (content.data.drop (0 + ("" : String).data.length)) newText.data ++
          content.data.drop (0 + ("" : String).data.length)) = _
    rw [getSub_id_of_no_dollar _ _ _ _ hd]
    simp
  rw [hrep]

/-- C9 witness: patching with empty old_text and new_text X prepends X. -/
theorem patch_empty_old_witness :
    jsIncludes "abc" "" = true ∧
    runEdit "/w" [("/w/f", "abc")] "f" "" "X" =
      (fsWrite [("/w/f", "abc")] "/w/f"
        (String.mk (("X" : String).data ++ ("abc" : String).data)),
       "Edited " ++ "f") :=
  patch_empty_old_amended "/w" "f" "/w/f" "X" "abc" [("/w/f", "abc")]
    (by rfl) (by rfl) (by decide)

/-- C10: when the spawned command fails without the timeout kill (for
example a nonzero exit status) but produced non-empty combined output,
run-command returns exactly what the success path would return for the
same streams: the trimmed output truncated to 50000 characters, with no
Error prefix added, so a failing exit is indistinguishable from success
whenever the command printed anything. -/
theorem nonzero_exit_output (command stdout stderr signal message : String)
    (hnd : dangerousList.any (fun d => jsIncludes command d) = false)
    (hne : (jsTrim (stdout.data ++ stderr.data)).isEmpty = false) :
    runBash command (ExecResult.failure false signal stdout stderr message) =
      runBash command (ExecResult.success stdout stderr) ∧
    (runBash command
        (ExecResult.failure false signal stdout stderr message)).1 =
      String.mk ((jsTrim (stdout.data ++ stderr.data)).take 50000) := by
  constructor
  · simp [runBash, hnd, hne]
  · simp [runBash, hnd, hne]

/-- C10 witness: a failing command that printed oops returns oops, the
same as a succeeding command with that output. -/
theorem nonzero_exit_output_witness :
    runBash "false" (ExecResult.failure false "" "oops" "" "Command failed: false") =
      runBash "false" (ExecResult.success "oops" "") ∧
    (runBash "false"
        (ExecResult.failure false "" "oops" "" "Command failed: false")).1 =
      String.mk ((jsTrim (("oops" : String).data ++ ("" : String).data)).take 50000) :=
  nonzero_exit_output "false" "oops" "" "" "Command failed: false"
    (by decide) (by decide)
